import Mathlib

/-!
Shallow embedding of the MoveGuiderAI core logic
(`logic/planner.py`, `logic/hydration.py`, `logic/user_profiles.py`).

Conventions of the embedding:
* A wall-clock time-of-day is a number of minutes since midnight (`Nat`,
  `< 1440` when it comes from a parsed `HH:MM` string).
* A timezone is modelled by its fixed UTC offset in minutes (`Tz`);
  `America/Phoenix` observes no DST, and target zones are taken at their
  offset on the reference date, so a fixed offset is faithful.
* A zone-aware `datetime` is a calendar day (days since the reference
  date), a time-of-day in minutes, and the attached zone (`AwareDT`);
  its absolute instant is `day * 1440 + tod - offset` (minutes, UTC).
* Routine items carry their parse results: `some m` when the `HH:MM`
  string parses to `m` minutes, `none` when `strptime` raises.
* Temperatures, humidities, UV indices and scores are rationals.
-/

/-- A timezone, by its UTC offset in minutes (east positive). -/
structure Tz where
  offset : Int
deriving DecidableEq, Repr

/-- The home zone `America/Phoenix`, UTC-7 all year. -/
def home_tz : Tz := ⟨-420⟩

/-- A zone-aware datetime: calendar day relative to the reference date,
time-of-day in minutes, attached zone. -/
structure AwareDT where
  day : Int
  tod : Int
  tz : Tz
deriving DecidableEq, Repr

/-- Absolute instant in minutes (UTC) of an aware datetime. -/
def AwareDT.instant (d : AwareDT) : Int :=
  d.day * 1440 + d.tod - d.tz.offset

/-- Subtraction `a - b` of aware datetimes, in minutes (Python subtracts instants). -/
def AwareDT.sub (a b : AwareDT) : Int :=
  a.instant - b.instant

/-- Python `datetime.astimezone`: same instant, wall fields recomputed in the
target zone. -/
def astimezone (d : AwareDT) (z : Tz) : AwareDT :=
  let t := d.instant + z.offset
  ⟨t.ediv 1440, t.emod 1440, z⟩

/-- Python `datetime.replace(year, month, day)` onto the reference date: the
wall time-of-day and the attached zone are kept, the date is overwritten. -/
def replaceDate (d : AwareDT) : AwareDT :=
  ⟨0, d.tod, d.tz⟩

/-- Python `home_tz.localize(datetime.combine(REFERENCE_DATE, tod))`. -/
def localizeRef (z : Tz) (todMin : Nat) : AwareDT :=
  ⟨0, todMin, z⟩

/-- A routine item: task label and the parse results of its `start` and
`end` `HH:MM` strings (`none` = `strptime` failure). -/
structure TaskItem where
  task : String
  start : Option Nat
  «end» : Option Nat
deriving DecidableEq, Repr

/-- A row of the Gantt dataframe built by `build_gantt_df`. -/
structure GanttRow where
  Task : String
  Start : AwareDT
  Finish : AwareDT
  Resource : String
deriving DecidableEq, Repr

/-- Python `city_name.split(",")[0]`: the text before the first comma. -/
def resourceName (city : String) : String :=
  String.mk (city.toList.takeWhile (· ≠ ','))

/-- One endpoint projection of `build_gantt_df`: localize the time-of-day
on the reference date in the home zone, shift to the city zone when one is
known, then overwrite the date with the reference date. -/
def projectEndpoint (tz : Option Tz) (todMin : Nat) : AwareDT :=
  let aware := localizeRef home_tz todMin
  let shifted := match tz with
    | some z => astimezone aware z
    | none => aware
  replaceDate shifted

/-- The rows `build_gantt_df` emits for one routine item: skipped when a
time string fails to parse, otherwise one row per city. -/
def rowsFor (tz1 : Option Tz) (name1 : String) (tz2 : Option Tz)
    (name2 : String) (t : TaskItem) : List GanttRow :=
  match t.start, t.«end» with
  | some s, some e =>
    [⟨t.task, projectEndpoint tz1 s, projectEndpoint tz1 e, resourceName name1⟩,
     ⟨t.task, projectEndpoint tz2 s, projectEndpoint tz2 e, resourceName name2⟩]
  | _, _ => []

/-- The function `build_gantt_df`: projects every routine item onto both city zones on
the reference date, skipping malformed items. -/
def build_gantt_df (routine : List TaskItem) (tz1 : Option Tz)
    (name1 : String) (tz2 : Option Tz) (name2 : String) : List GanttRow :=
  routine.flatMap (rowsFor tz1 name1 tz2 name2)

theorem sub_emod_1440 (a b o : Int) :
    ((a.emod 1440 - o) - (b.emod 1440 - o)).emod 1440 = (a - b).emod 1440 := by
  have h : (a.emod 1440 - o) - (b.emod 1440 - o) = a.emod 1440 - b.emod 1440 := by
    ring
  rw [h]
  show (a % 1440 - b % 1440) % 1440 = (a - b) % 1440
  rw [← Int.sub_emod]

theorem mem_rowsFor_mem_build (routine : List TaskItem) (tz1 : Option Tz)
    (name1 : String) (tz2 : Option Tz) (name2 : String) (t : TaskItem)
    (ht : t ∈ routine) (row : GanttRow)
    (hrow : row ∈ rowsFor tz1 name1 tz2 name2 t) :
    row ∈ build_gantt_df routine tz1 name1 tz2 name2 := by
  simp only [build_gantt_df, List.mem_flatMap]
  exact ⟨t, ht, hrow⟩

theorem projectEndpoint_sub_emod (tz : Option Tz) (s e : Nat) :
    ((projectEndpoint tz e).sub (projectEndpoint tz s)).emod 1440
      = ((e : Int) - (s : Int)).emod 1440 := by
  cases tz with
  | none =>
    simp [projectEndpoint, localizeRef, replaceDate, AwareDT.sub, AwareDT.instant]
  | some z =>
    simp only [projectEndpoint, localizeRef, astimezone, replaceDate,
      AwareDT.sub, AwareDT.instant, zero_mul, zero_add]
    rw [sub_emod_1440]
    congr 1
    ring

/-- Claim C1 (amended). For every routine task whose start and end parse as
HH:MM with start < end, each row emitted by `build_gantt_df` for that task
has `Finish - Start` congruent to the source wall-clock duration modulo
24 hours; the projection preserves the elapsed duration only up to whole
days, because the date components are overwritten with the reference date
after the zone conversion. -/
theorem build_gantt_duration_mod (routine : List TaskItem) (tz1 : Option Tz)
    (name1 : String) (tz2 : Option Tz) (name2 : String) (t : TaskItem)
    (ht : t ∈ routine) (s e : Nat) (hs : t.start = some s)
    (he : t.«end» = some e) (hs1440 : s < 1440) (he1440 : e < 1440)
    (hse : s < e) :
    ∀ row ∈ rowsFor tz1 name1 tz2 name2 t,
      row ∈ build_gantt_df routine tz1 name1 tz2 name2 ∧
        (row.Finish.sub row.Start).emod 1440 = (e : Int) - (s : Int) := by
  intro row hrow
  refine ⟨mem_rowsFor_mem_build routine tz1 name1 tz2 name2 t ht row hrow, ?_⟩
  have hdiff : ((e : Int) - (s : Int)).emod 1440 = (e : Int) - (s : Int) :=
    Int.emod_eq_of_lt (by omega) (by omega)
  simp only [rowsFor, hs, he, List.mem_cons, List.mem_singleton] at hrow
  rcases hrow with h | h | h
  · subst h
    simpa [hdiff] using projectEndpoint_sub_emod tz1 s e
  · subst h
    simpa [hdiff] using projectEndpoint_sub_emod tz2 s e
  · cases h

theorem build_gantt_duration_mod_witness :
    (⟨"Work", ⟨0, 960, ⟨60⟩⟩, ⟨0, 1020, ⟨60⟩⟩, "Berlin"⟩ : GanttRow)
        ∈ build_gantt_df [⟨"Work", some 480, some 540⟩] (some ⟨60⟩) "Berlin"
          none "Phoenix" ∧
      ((⟨"Work", ⟨0, 960, ⟨60⟩⟩, ⟨0, 1020, ⟨60⟩⟩, "Berlin"⟩ : GanttRow).Finish.sub
          (⟨"Work", ⟨0, 960, ⟨60⟩⟩, ⟨0, 1020, ⟨60⟩⟩, "Berlin"⟩ : GanttRow).Start).emod
          1440 = (540 : Int) - (480 : Int) :=
  build_gantt_duration_mod [⟨"Work", some 480, some 540⟩] (some ⟨60⟩) "Berlin"
    none "Phoenix" ⟨"Work", some 480, some 540⟩ (by decide) 480 540 rfl rfl
    (by decide) (by decide) (by decide)
    ⟨"Work", ⟨0, 960, ⟨60⟩⟩, ⟨0, 1020, ⟨60⟩⟩, "Berlin"⟩ (by decide)

/-- Claim C1 (counterexample). A task running 16:30-17:30 in Phoenix (start
990, end 1050 minutes, so duration 60), projected onto a UTC+0 city,
yields rows whose `Finish - Start` is -1380 minutes, not 60: the zone
conversion moves the end across midnight and the reference-date overwrite
destroys the elapsed duration. -/
theorem build_gantt_duration_cex :
    (990 : Nat) < 1050 ∧
      (build_gantt_df [⟨"Evening walk", some 990, some 1050⟩] (some ⟨0⟩)
          "London" (some ⟨0⟩) "Dublin").map
          (fun r => r.Finish.sub r.Start) = [-1380, -1380] ∧
      (-1380 : Int) ≠ (1050 : Int) - (990 : Int) := by
  refine ⟨by decide, by decide, by decide⟩

/-- Claim C3 (counterexample). A task whose strings parse but with
end ≤ start (start 10:00 = 600, end 09:00 = 540) is NOT skipped by
`build_gantt_df`: it still emits one row for each of the two cities. -/
theorem build_gantt_end_le_start_cex :
    (540 : Nat) ≤ 600 ∧
      (build_gantt_df [⟨"Backwards", some 600, some 540⟩] none "A" none
          "B").length = 2 := by
  refine ⟨by decide, by decide⟩

/-- Claim C3 (amended). `build_gantt_df` skips a task only when one of its
time strings fails to parse; a task whose strings parse with end ≤ start
is treated like any other and contributes one row per city. -/
theorem build_gantt_end_le_start_emitted (routine : List TaskItem)
    (tz1 : Option Tz) (name1 : String) (tz2 : Option Tz) (name2 : String)
    (t : TaskItem) (ht : t ∈ routine) (s e : Nat) (hs : t.start = some s)
    (he : t.«end» = some e) (hle : e ≤ s) :
    (rowsFor tz1 name1 tz2 name2 t).length = 2 ∧
      ∀ row ∈ rowsFor tz1 name1 tz2 name2 t,
        row ∈ build_gantt_df routine tz1 name1 tz2 name2 := by
  constructor
  · simp [rowsFor, hs, he]
  · intro row hrow
    exact mem_rowsFor_mem_build routine tz1 name1 tz2 name2 t ht row hrow

theorem build_gantt_end_le_start_emitted_witness :
    (rowsFor none "A" none "B" ⟨"Backwards", some 600, some 540⟩).length = 2 :=
  (build_gantt_end_le_start_emitted [⟨"Backwards", some 600, some 540⟩]
    none "A" none "B" ⟨"Backwards", some 600, some 540⟩ (by decide) 600 540
    rfl rfl (by decide)).1

/-!
Embedding of `logic/user_profiles.py` — profile persistence. The JSON store is modelled
as an association list with string keys in insertion order (a Python
dict); `save_profile` is modelled in state-passing style: it receives the
loaded store and returns either the error it raises or the store it
writes. Names are lists of characters so that Python's `str.strip()` can
be modelled structurally.
-/

/-- Python `str.strip()` whitespace: the characters `str.isspace()`
accepts (U+0009-U+000D, U+001C-U+001F, space, U+0085, U+00A0, U+1680,
U+2000-U+200A, U+2028, U+2029, U+202F, U+205F, U+3000). -/
def isPyWS (c : Char) : Bool :=
  (0x09 ≤ c.toNat && c.toNat ≤ 0x0d) || c.toNat == 0x20
    || (0x1c ≤ c.toNat && c.toNat ≤ 0x1f) || c.toNat == 0x85
    || c.toNat == 0xa0 || c.toNat == 0x1680
    || (0x2000 ≤ c.toNat && c.toNat ≤ 0x200a) || c.toNat == 0x2028
    || c.toNat == 0x2029 || c.toNat == 0x202f || c.toNat == 0x205f
    || c.toNat == 0x3000

/-- Python `str.strip()`. -/
def pyStrip (s : List Char) : List Char :=
  ((s.dropWhile isPyWS).reverse.dropWhile isPyWS).reverse

/-- Python dict lookup `profiles.get(k)` on an insertion-ordered store. -/
def profileLookup {α : Type} : List (List Char × α) → List Char → Option α
  | [], _ => none
  | p :: ps, k => if p.1 = k then some p.2 else profileLookup ps k

/-- Python dict assignment `profiles[k] = v`: replace the value of an
existing key in place, otherwise append the new key at the end. -/
def dict_set {α : Type} : List (List Char × α) → List Char → α → List (List Char × α)
  | [], k, v => [(k, v)]
  | p :: ps, k, v => if p.1 = k then (k, v) :: ps else p :: dict_set ps k v

/-- The function `save_profile`: raises `ValueError` when the stripped name is empty
(before touching the store), otherwise writes the store with that one key
set. -/
def save_profile {α : Type} (profile_name : List Char) (profile_data : α)
    (profiles : List (List Char × α)) :
    Except String (List (List Char × α)) :=
  if pyStrip profile_name = [] then
    Except.error "Profile name cannot be empty."
  else
    Except.ok (dict_set profiles profile_name profile_data)

theorem profileLookup_dict_set_self {α : Type} (ps : List (List Char × α))
    (k : List Char) (v : α) : profileLookup (dict_set ps k v) k = some v := by
  induction ps with
  | nil => simp [dict_set, profileLookup]
  | cons p ps ih =>
    by_cases h : p.1 = k
    · simp [dict_set, h, profileLookup]
    · simp [dict_set, h, profileLookup, ih]

theorem profileLookup_dict_set_other {α : Type} (ps : List (List Char × α))
    (k k' : List Char) (v : α) (hkk : k' ≠ k) :
    profileLookup (dict_set ps k v) k' = profileLookup ps k' := by
  have h' : k ≠ k' := Ne.symm hkk
  induction ps with
  | nil => simp [dict_set, profileLookup, h']
  | cons p ps ih =>
    by_cases h : p.1 = k
    · simp [dict_set, h, profileLookup, h']
    · simp [dict_set, h, profileLookup, ih]

/-- Claim C10. `save_profile` with an empty-after-strip name raises
`ValueError` and the store is untouched; with any other name it writes the
store with exactly that key set to the new data and every other key bound
as before. -/
theorem save_profile_spec {α : Type} (profile_name : List Char)
    (profile_data : α) (profiles : List (List Char × α)) :
    (pyStrip profile_name = [] →
      save_profile profile_name profile_data profiles
        = Except.error "Profile name cannot be empty.") ∧
    (pyStrip profile_name ≠ [] →
      save_profile profile_name profile_data profiles
          = Except.ok (dict_set profiles profile_name profile_data) ∧
        profileLookup (dict_set profiles profile_name profile_data)
            profile_name = some profile_data ∧
        ∀ k, k ≠ profile_name →
          profileLookup (dict_set profiles profile_name profile_data) k
            = profileLookup profiles k) := by
  constructor
  · intro h
    simp [save_profile, h]
  · intro h
    refine ⟨by simp [save_profile, h], profileLookup_dict_set_self _ _ _, ?_⟩
    intro k hk
    exact profileLookup_dict_set_other _ _ _ _ hk

theorem save_profile_spec_witness :
    save_profile [' ', '\t'] (1 : Nat) [(['A'], 0)]
      = Except.error "Profile name cannot be empty." :=
  (save_profile_spec [' ', '\t'] 1 [(['A'], 0)]).1 (by decide)

/-!
Forecast data model (§3 of the spec): one hourly observation per row.
Timestamps are minutes on the city's local clock; `dayOf` is
`DatetimeIndex.normalize()` (the observation's calendar day) and
`t.emod 1440` is `Timestamp.time()` (the time of day).
-/

/-- One hourly observation of a `ForecastSeries`. -/
structure HourlyObs where
  ts : Int
  temp : ℚ
  humidity : ℚ
  uv : ℚ
  sunrise : Int
  sunset : Int
deriving DecidableEq, Repr, Inhabited

/-- Python `Timestamp.normalize()`: the calendar day of a timestamp. -/
def dayOf (t : Int) : Int := t.ediv 1440

/-!
Embedding of `logic/hydration.py` — `calculate_hydration_needs`.
-/

/-- Per-hour recommended intake in ml: base spread over 16 waking hours,
heat extra above 25 degrees, flat humidity extra above 60 percent. -/
def hourly_intake (w t h : ℚ) : ℚ :=
  (w * 35) / 16 + max 0 ((t - 25) / 5) * 150 + (if h > 60 then 50 else 0)

/-- A row of the frame returned by `calculate_hydration_needs`. -/
structure HydroRow where
  temp : ℚ
  humidity : ℚ
  intake : ℚ
  cumulative : ℚ
deriving DecidableEq, Repr, Inhabited

/-- The rows of `calculate_hydration_needs` before the 24-hour cut:
per-row intake plus the running cumulative sum (`cumsum`), threaded
through the accumulator `acc`. -/
def hydro_rows (w : ℚ) : List HourlyObs → ℚ → List HydroRow
  | [], _ => []
  | r :: rs, acc =>
    let inc := hourly_intake w r.temp r.humidity
    ⟨r.temp, r.humidity, inc, acc + inc⟩ :: hydro_rows w rs (acc + inc)

/-- The function `calculate_hydration_needs`: intake and cumulative columns, restricted
to the first 24 rows (`df.iloc[:24]`). -/
def calculate_hydration_needs (df : List HourlyObs) (w : ℚ) : List HydroRow :=
  (hydro_rows w df 0).take 24

theorem hydro_rows_length (w : ℚ) :
    ∀ (df : List HourlyObs) (acc : ℚ), (hydro_rows w df acc).length = df.length := by
  intro df
  induction df with
  | nil => intro acc; rfl
  | cons r rs ih => intro acc; simp [hydro_rows, ih]

theorem hydro_rows_getD_intake (w : ℚ) :
    ∀ (df : List HourlyObs) (acc : ℚ) (i : Nat), i < df.length →
      ((hydro_rows w df acc).getD i default).intake
        = hourly_intake w (df.getD i default).temp (df.getD i default).humidity := by
  intro df
  induction df with
  | nil => intro acc i hi; cases hi
  | cons r rs ih =>
    intro acc i hi
    cases i with
    | zero => simp [hydro_rows]
    | succ j =>
      simp only [hydro_rows, List.getD_cons_succ]
      exact ih _ j (by simpa using hi)

theorem getD_take {α : Type} [Inhabited α] :
    ∀ (l : List α) (n i : Nat), i < n →
      (l.take n).getD i default = l.getD i default := by
  intro l
  induction l with
  | nil => intro n i _; simp
  | cons x xs ih =>
    intro n i hin
    cases n with
    | zero => cases hin
    | succ m =>
      cases i with
      | zero => simp
      | succ j =>
        simp only [List.take, List.getD_cons_succ]
        exact ih m j (by omega)

/-- Claim C6. Every row of the frame returned by `calculate_hydration_needs`
carries the per-hour intake `(w * 35) / 16 + max 0 ((temp - 25) / 5) * 150
+ (50 if humidity > 60 else 0)` ml for its observation. -/
theorem calculate_hydration_intake (df : List HourlyObs) (w : ℚ) :
    ∀ i, i < (calculate_hydration_needs df w).length →
      ((calculate_hydration_needs df w).getD i default).intake
        = (w * 35) / 16
          + max 0 (((df.getD i default).temp - 25) / 5) * 150
          + (if (df.getD i default).humidity > 60 then (50 : ℚ) else 0) := by
  intro i hi
  have hlen : (calculate_hydration_needs df w).length = min 24 df.length := by
    simp [calculate_hydration_needs, hydro_rows_length]
  rw [hlen] at hi
  have h24 : i < 24 := lt_of_lt_of_le hi (min_le_left _ _)
  have hdf : i < df.length := lt_of_lt_of_le hi (min_le_right _ _)
  rw [calculate_hydration_needs, getD_take _ _ _ h24,
    hydro_rows_getD_intake w df 0 i hdf]
  rfl

theorem calculate_hydration_intake_witness :
    ((calculate_hydration_needs [⟨0, 25, 50, 0, 0, 0⟩] 75).getD 0
        default).intake = 2625 / 16 ∧
      max (0 : ℚ) (((25 : ℚ) - 25) / 5) * 150 = 0 ∧
      ¬((50 : ℚ) > 60) := by
  refine ⟨?_, by norm_num, by norm_num⟩
  have h := calculate_hydration_intake [⟨0, 25, 50, 0, 0, 0⟩] 75 0
    (by simp [calculate_hydration_needs, hydro_rows])
  rw [h]
  norm_num

theorem hourly_intake_nonneg (w t h : ℚ) (hw : 0 ≤ w) :
    0 ≤ hourly_intake w t h := by
  unfold hourly_intake
  have h1 : 0 ≤ (w * 35) / 16 := by positivity
  have h2 : 0 ≤ max 0 ((t - 25) / 5) * 150 := by
    have := le_max_left (0 : ℚ) ((t - 25) / 5)
    nlinarith
  have h3 : 0 ≤ (if h > 60 then (50 : ℚ) else 0) := by
    split <;> norm_num
  linarith

theorem hydro_rows_cum_ge (w : ℚ) (hw : 0 ≤ w) :
    ∀ (df : List HourlyObs) (acc : ℚ) (j : Nat), j < df.length →
      acc ≤ ((hydro_rows w df acc).getD j default).cumulative := by
  intro df
  induction df with
  | nil => intro acc j hj; cases hj
  | cons r rs ih =>
    intro acc j hj
    cases j with
    | zero =>
      simp only [hydro_rows, List.getD_cons_zero]
      have := hourly_intake_nonneg w r.temp r.humidity hw
      linarith
    | succ i =>
      simp only [hydro_rows, List.getD_cons_succ]
      have h1 := ih (acc + hourly_intake w r.temp r.humidity) i (by simpa using hj)
      have := hourly_intake_nonneg w r.temp r.humidity hw
      linarith

theorem hydro_rows_cum_mono (w : ℚ) (hw : 0 ≤ w) :
    ∀ (df : List HourlyObs) (acc : ℚ) (i : Nat), i + 1 < df.length →
      ((hydro_rows w df acc).getD i default).cumulative
        ≤ ((hydro_rows w df acc).getD (i + 1) default).cumulative := by
  intro df
  induction df with
  | nil => intro acc i hi; cases hi
  | cons r rs ih =>
    intro acc i hi
    cases i with
    | zero =>
      simp only [hydro_rows, List.getD_cons_zero, List.getD_cons_succ]
      exact hydro_rows_cum_ge w hw rs _ 0 (by simpa using hi)
    | succ j =>
      simp only [hydro_rows, List.getD_cons_succ]
      exact ih _ j (by simpa using hi)

/-- Claim C7. For every series and every non-negative weight, the frame
returned by `calculate_hydration_needs` has exactly `min 24 (length of
the series)` rows and its cumulative column is non-decreasing from each
row to the next. -/
theorem calculate_hydration_cumulative (df : List HourlyObs) (w : ℚ)
    (hw : 0 ≤ w) :
    (calculate_hydration_needs df w).length = min 24 df.length ∧
      ∀ i, i + 1 < (calculate_hydration_needs df w).length →
        ((calculate_hydration_needs df w).getD i default).cumulative
          ≤ ((calculate_hydration_needs df w).getD (i + 1) default).cumulative := by
  have hlen : (calculate_hydration_needs df w).length = min 24 df.length := by
    simp [calculate_hydration_needs, hydro_rows_length]
  refine ⟨hlen, ?_⟩
  intro i hi
  rw [hlen] at hi
  have h24 : i + 1 < 24 := lt_of_lt_of_le hi (min_le_left _ _)
  have hdf : i + 1 < df.length := lt_of_lt_of_le hi (min_le_right _ _)
  rw [calculate_hydration_needs, getD_take _ _ _ (by omega), getD_take _ _ _ h24]
  exact hydro_rows_cum_mono w hw df 0 i hdf

theorem calculate_hydration_cumulative_witness :
    (calculate_hydration_needs [⟨0, 25, 50, 0, 0, 0⟩, ⟨60, 30, 70, 0, 0, 0⟩]
        75).length = min 24 2 ∧
      ((calculate_hydration_needs [⟨0, 25, 50, 0, 0, 0⟩, ⟨60, 30, 70, 0, 0, 0⟩]
            75).getD 0 default).cumulative
        ≤ ((calculate_hydration_needs [⟨0, 25, 50, 0, 0, 0⟩,
            ⟨60, 30, 70, 0, 0, 0⟩] 75).getD 1 default).cumulative := by
  have h := calculate_hydration_cumulative
    [⟨0, 25, 50, 0, 0, 0⟩, ⟨60, 30, 70, 0, 0, 0⟩] 75 (by norm_num)
  refine ⟨by simpa using h.1, ?_⟩
  exact h.2 0 (by rw [h.1]; norm_num)

/-!
Embedding of `logic/planner.py` — `get_gantt_background_annotations`.
-/

/-- The two background-zone classifications. -/
inductive ZoneKind where
  | warning
  | comfort
deriving DecidableEq, Repr

/-- One background rectangle: reference-date hour `[x0, x0 + 60)` minutes
and its classification (the fill colour in the source). -/
structure Shape where
  x0 : Int
  x1 : Int
  kind : ZoneKind
deriving DecidableEq, Repr

/-- Per-hour classification of `get_gantt_background_annotations`:
Heat/UV Warning when temperature > 30 or UV index > 7, otherwise Optimal
Comfort when 18 <= temperature <= 25 and UV index < 4, otherwise none. -/
def zoneOf (r : HourlyObs) : Option ZoneKind :=
  if r.temp > 30 ∨ r.uv > 7 then some ZoneKind.warning
  else if 18 ≤ r.temp ∧ r.temp ≤ 25 ∧ r.uv < 4 then some ZoneKind.comfort
  else none

/-- The function `get_gantt_background_annotations`: scans the first 24 rows and emits
one shape per classified hour, anchored at its time of day on the
reference date. -/
def get_gantt_background_annotations (df : List HourlyObs) : List Shape :=
  (df.take 24).filterMap fun r =>
    (zoneOf r).map fun k => ⟨r.ts.emod 1440, r.ts.emod 1440 + 60, k⟩

/-- Claim C5. For every observation among the first 24 of a series,
`get_gantt_background_annotations` classifies it as Warning exactly when
temperature > 30 or UV > 7, as Comfort exactly when 18 <= temperature <=
25 and UV < 4, and emits no zone otherwise; the two threshold conditions
are mutually exclusive, so no hour is both. -/
theorem gantt_zone_classification (df : List HourlyObs) :
    ∀ r ∈ df.take 24,
      (zoneOf r = some ZoneKind.warning ↔ (30 < r.temp ∨ 7 < r.uv)) ∧
        (zoneOf r = some ZoneKind.comfort
          ↔ (18 ≤ r.temp ∧ r.temp ≤ 25 ∧ r.uv < 4)) ∧
        (zoneOf r = none
          ↔ (¬(30 < r.temp ∨ 7 < r.uv)
              ∧ ¬(18 ≤ r.temp ∧ r.temp ≤ 25 ∧ r.uv < 4))) ∧
        ¬((30 < r.temp ∨ 7 < r.uv) ∧ (18 ≤ r.temp ∧ r.temp ≤ 25 ∧ r.uv < 4)) := by
  intro r _
  have hdisj :
      ¬((30 < r.temp ∨ 7 < r.uv) ∧ (18 ≤ r.temp ∧ r.temp ≤ 25 ∧ r.uv < 4)) := by
    rintro ⟨hw, ht18, ht25, huv⟩
    rcases hw with h | h
    · linarith
    · linarith
  refine ⟨?_, ?_, ?_, hdisj⟩
  · constructor
    · intro h
      by_contra hc
      simp only [zoneOf, if_neg hc] at h
      split at h <;> simp_all
    · intro h
      simp [zoneOf, h]
  · constructor
    · intro h
      by_cases hw : 30 < r.temp ∨ 7 < r.uv
      · simp [zoneOf, hw] at h
      · by_cases hcf : 18 ≤ r.temp ∧ r.temp ≤ 25 ∧ r.uv < 4
        · exact hcf
        · simp [zoneOf, hw, hcf] at h
    · intro h
      have hw : ¬(30 < r.temp ∨ 7 < r.uv) := fun hww => hdisj ⟨hww, h⟩
      simp [zoneOf, hw, h]
  · constructor
    · intro h
      by_cases hw : 30 < r.temp ∨ 7 < r.uv
      · simp [zoneOf, hw] at h
      · by_cases hcf : 18 ≤ r.temp ∧ r.temp ≤ 25 ∧ r.uv < 4
        · simp [zoneOf, hw, hcf] at h
        · exact ⟨hw, hcf⟩
    · rintro ⟨hw, hcf⟩
      simp [zoneOf, hw, hcf]

theorem gantt_zone_classification_witness :
    zoneOf ⟨0, 32, 40, 1, 360, 1080⟩ = some ZoneKind.warning :=
  ((gantt_zone_classification [⟨0, 32, 40, 1, 360, 1080⟩]
      ⟨0, 32, 40, 1, 360, 1080⟩ (by simp)).1).mpr (by norm_num)

/-!
Embedding of `logic/planner.py` — `find_daily_best_workout`. The `while` loop over
candidate start times (first-of-day to last-of-day in 30-minute steps) is
rendered as a map over `List.range`; everything else follows the source
line by line.
-/

/-- The busy time-of-day intervals parsed from the routine; an item whose
start or end fails to parse is skipped. -/
def busy_times (routine : List TaskItem) : List (Nat × Nat) :=
  routine.filterMap fun t =>
    match t.start, t.«end» with
    | some s, some e => some (s, e)
    | _, _ => none

/-- The conflict test of the source: free iff for every busy interval,
`current_time.time() >= busy_end or workout_end.time() <= busy_start`. -/
def is_free (busy : List (Nat × Nat)) (t wend : Int) : Bool :=
  busy.all fun b =>
    decide ((b.2 : Int) ≤ t.emod 1440) || decide (wend.emod 1440 ≤ (b.1 : Int))

/-- Python `day_df.loc[current_time:workout_end]`: rows with timestamp in the
closed interval (pandas label slicing includes both endpoints). -/
def windowRows (day_df : List HourlyObs) (t wend : Int) : List HourlyObs :=
  day_df.filter fun r => decide (t ≤ r.ts) && decide (r.ts ≤ wend)

/-- Sum of a list of rationals (`Series.sum`). -/
def qsum (l : List ℚ) : ℚ := l.foldl (· + ·) 0

/-- Maximum of a nonempty list of rationals (`Series.max`). -/
def qmax (x : ℚ) (l : List ℚ) : ℚ := l.foldl max x

/-- The score the source assigns to a feasible window `r :: rs` (the
first row carries the sunrise/sunset used by the daylight adjustment). -/
def slotScore (r : HourlyObs) (rs : List HourlyObs) (t wend : Int) : ℚ :=
  let w := r :: rs
  let n : ℚ := (w.length : ℚ)
  let avg_temp := qsum (w.map (·.temp)) / n
  let avg_humidity := qsum (w.map (·.humidity)) / n
  let max_uv := qmax r.uv (rs.map (·.uv))
  let score := max 0 (avg_temp - 22) * 2 + min 0 (avg_temp - 15) * (-1)
    + max 0 (avg_humidity - 60) * (1 / 2) + max_uv * 5
  if r.sunrise ≤ t ∧ wend ≤ r.sunset then score - 10 else score + 5

/-- A scored candidate slot. -/
structure Slot where
  start_time : Int
  score : ℚ
deriving DecidableEq, Repr, Inhabited

/-- Number of iterations of the candidate `while` loop. -/
def numSlots (tmin tmax : Int) (dur : Nat) : Nat :=
  if tmin + dur ≤ tmax then (tmax - tmin - dur).toNat / 30 + 1 else 0

/-- The candidate start times: `tmin`, `tmin + 30`, ... while
`start + dur <= tmax`. -/
def slotStarts (tmin tmax : Int) (dur : Nat) : List Int :=
  (List.range (numSlots tmin tmax dur)).map fun k : Nat => tmin + 30 * (k : Int)

/-- The `possible_slots` list of the source: candidates that pass the
busy-interval test and whose window holds at least one observation, with
their scores. -/
def possible_slots (day_df : List HourlyObs) (busy : List (Nat × Nat))
    (dur : Nat) (tmin tmax : Int) : List Slot :=
  (slotStarts tmin tmax dur).filterMap fun t =>
    if is_free busy t (t + dur) then
      match windowRows day_df t (t + dur) with
      | [] => none
      | r :: rs => some ⟨t, slotScore r rs t (t + dur)⟩
    else none

/-- Python's `min(..., key=score)`: the first element of least score. -/
def pickBest (b : Slot) : List Slot → Slot
  | [] => b
  | s :: ss => pickBest (if s.score < b.score then s else b) ss

/-- Python `dtidx.normalize().unique()`: distinct values in first-seen order. -/
def unique_days (l : List Int) : List Int :=
  l.foldl (fun acc d => if d ∈ acc then acc else acc ++ [d]) []

/-- The rows of one calendar day (`city_df[dtidx.normalize() == day]`). -/
def day_rows (df : List HourlyObs) (d : Int) : List HourlyObs :=
  df.filter fun r => decide (dayOf r.ts = d)

/-- Python `day_df.index.min()`. -/
def tsMin (r : HourlyObs) (rs : List HourlyObs) : Int :=
  (rs.map (·.ts)).foldl min r.ts

/-- Python `day_df.index.max()`. -/
def tsMax (r : HourlyObs) (rs : List HourlyObs) : Int :=
  (rs.map (·.ts)).foldl max r.ts

/-- The candidate slots of one calendar day. -/
def slotsFor (df : List HourlyObs) (busy : List (Nat × Nat)) (dur : Nat)
    (d : Int) : List Slot :=
  match day_rows df d with
  | [] => []
  | r :: rs => possible_slots (r :: rs) busy dur (tsMin r rs) (tsMax r rs)

/-- Python `strftime("%A")` with day 0 of the epoch a Thursday. -/
def weekdayName (t : Int) : String :=
  ["Thursday", "Friday", "Saturday", "Sunday", "Monday", "Tuesday",
    "Wednesday"].getD ((dayOf t).emod 7).toNat ("Thursday")

/-- The `day_label` the source attaches to the best slot of day `idx`. -/
def day_label (idx : Nat) (t : Int) : String :=
  if idx = 0 then "Today" else if idx = 1 then "Tomorrow" else weekdayName t

/-- A per-day recommendation (best slot plus its label). -/
structure Recommendation where
  start_time : Int
  score : ℚ
  day_label : String
deriving DecidableEq, Repr

/-- The recommendation for day number `idx` with date `d`: none when the
day contributes no feasible scored slot, else the first minimum-score
slot with its label. -/
def bestFor (df : List HourlyObs) (busy : List (Nat × Nat)) (dur : Nat)
    (idx : Nat) (d : Int) : Option Recommendation :=
  match slotsFor df busy dur d with
  | [] => none
  | s :: ss =>
    let b := pickBest s ss
    some ⟨b.start_time, b.score, day_label idx b.start_time⟩

/-- The function `find_daily_best_workout`: the best slot of each of the first (at
most) 3 calendar days of the series. -/
def find_daily_best_workout (df : List HourlyObs) (routine : List TaskItem)
    (dur : Nat) : List Recommendation :=
  (((unique_days (df.map fun r => dayOf r.ts)).take 3).enum).filterMap
    fun p => bestFor df (busy_times routine) dur p.1 p.2

theorem pickBest_mem (b : Slot) (l : List Slot) :
    pickBest b l = b ∨ pickBest b l ∈ l := by
  induction l generalizing b with
  | nil => left; rfl
  | cons s ss ih =>
    have hred : pickBest b (s :: ss)
        = pickBest (if s.score < b.score then s else b) ss := rfl
    rcases ih (if s.score < b.score then s else b) with h | h
    · rw [hred, h]
      by_cases hc : s.score < b.score
      · right; simp [hc]
      · left; simp [hc]
    · right
      rw [hred]
      exact List.mem_cons_of_mem s h

theorem pickBest_le (b : Slot) (l : List Slot) :
    (pickBest b l).score ≤ b.score ∧ ∀ s ∈ l, (pickBest b l).score ≤ s.score := by
  induction l generalizing b with
  | nil => exact ⟨le_refl _, by simp⟩
  | cons s ss ih =>
    have hred : pickBest b (s :: ss)
        = pickBest (if s.score < b.score then s else b) ss := rfl
    obtain ⟨h1, h2⟩ := ih (if s.score < b.score then s else b)
    by_cases hc : s.score < b.score
    · rw [if_pos hc] at h1 h2
      rw [hred, if_pos hc]
      refine ⟨le_trans h1 (le_of_lt hc), ?_⟩
      intro x hx
      rcases List.mem_cons.mp hx with rfl | hx
      · exact h1
      · exact h2 x hx
    · rw [if_neg hc] at h1 h2
      rw [hred, if_neg hc]
      refine ⟨h1, ?_⟩
      intro x hx
      rcases List.mem_cons.mp hx with rfl | hx
      · exact le_trans h1 (not_lt.mp hc)
      · exact h2 x hx

theorem possible_slots_mem_elim (day_df : List HourlyObs)
    (busy : List (Nat × Nat)) (dur : Nat) (tmin tmax : Int) (s : Slot)
    (hs : s ∈ possible_slots day_df busy dur tmin tmax) :
    s.start_time ∈ slotStarts tmin tmax dur ∧
      is_free busy s.start_time (s.start_time + dur) = true ∧
      ∃ r rs, windowRows day_df s.start_time (s.start_time + dur) = r :: rs ∧
        s.score = slotScore r rs s.start_time (s.start_time + dur) := by
  simp only [possible_slots, List.mem_filterMap] at hs
  obtain ⟨t, ht, hf⟩ := hs
  by_cases hfree : is_free busy t (t + dur)
  · rw [if_pos hfree] at hf
    rcases hw : windowRows day_df t (t + dur) with _ | ⟨r, rs⟩
    · rw [hw] at hf; cases hf
    · rw [hw] at hf
      cases hf
      exact ⟨ht, hfree, r, rs, hw, rfl⟩
  · rw [if_neg hfree] at hf; cases hf

theorem is_free_spec (busy : List (Nat × Nat)) (t wend : Int)
    (h : is_free busy t wend = true) :
    ∀ b ∈ busy, ¬(t.emod 1440 < (b.2 : Int) ∧ (b.1 : Int) < wend.emod 1440) := by
  intro b hb
  have hball := List.all_eq_true.mp h b hb
  simp only [Bool.or_eq_true, decide_eq_true_eq] at hball
  omega

/-- Claim C2. Every slot returned by `find_daily_best_workout` is
conflict-free: for every busy interval parsed from the routine, the
time-of-day overlap test `start.time() < busy_end and
(start + duration).time() > busy_start` fails. -/
theorem find_daily_best_workout_conflict_free (df : List HourlyObs)
    (routine : List TaskItem) (dur : Nat) :
    ∀ rec ∈ find_daily_best_workout df routine dur,
      ∀ b ∈ busy_times routine,
        ¬(rec.start_time.emod 1440 < (b.2 : Int)
            ∧ (b.1 : Int) < (rec.start_time + dur).emod 1440) := by
  intro rec hrec bsy hbsy
  simp only [find_daily_best_workout, List.mem_filterMap] at hrec
  obtain ⟨p, hp, hbf⟩ := hrec
  unfold bestFor at hbf
  rcases hsl : slotsFor df (busy_times routine) dur p.2 with _ | ⟨s, ss⟩
  · rw [hsl] at hbf; cases hbf
  · rw [hsl] at hbf
    cases hbf
    have hmem : pickBest s ss ∈ slotsFor df (busy_times routine) dur p.2 := by
      rw [hsl]
      rcases pickBest_mem s ss with h | h
      · rw [h]; exact List.mem_cons_self _ _
      · exact List.mem_cons_of_mem s h
    unfold slotsFor at hmem
    rcases hdr : day_rows df p.2 with _ | ⟨r, rs⟩
    · rw [hdr] at hmem; cases hmem
    · rw [hdr] at hmem
      have helim := possible_slots_mem_elim _ _ _ _ _ _ hmem
      exact is_free_spec _ _ _ helim.2.1 bsy hbsy


/-- The score of §4.4 of the spec, phrased over the observations of the
window and the sunrise/sunset of the window's day: weighted comfort terms
plus the daylight adjustment (-10 when the entire window lies within
[sunrise, sunset], +5 otherwise). -/
def spec_score : List HourlyObs → Int → Int → Int → Int → ℚ
  | [], _, _, _, _ => 0
  | r :: rs, t, wend, srise, sset =>
    let w := r :: rs
    let n : ℚ := (w.length : ℚ)
    let mean_temp := qsum (w.map (·.temp)) / n
    let mean_humidity := qsum (w.map (·.humidity)) / n
    let max_uv := qmax r.uv (rs.map (·.uv))
    let raw := max 0 (mean_temp - 22) * 2 + min 0 (mean_temp - 15) * (-1)
      + max 0 (mean_humidity - 60) * (1 / 2) + max_uv * 5
    if srise ≤ t ∧ wend ≤ sset then raw - 10 else raw + 5

/-- Claim C4. On a day whose rows all share one sunrise and one sunset (the
ForecastSeries invariant), every feasible candidate recorded in
`possible_slots` carries exactly the §4.4 score: the weighted formula over
the observations of its window with the daylight adjustment against that
day's [sunrise, sunset]. -/
theorem possible_slots_score_spec (day_df : List HourlyObs)
    (busy : List (Nat × Nat)) (dur : Nat) (tmin tmax srise sset : Int)
    (hsun : ∀ r ∈ day_df, r.sunrise = srise ∧ r.sunset = sset) :
    ∀ s ∈ possible_slots day_df busy dur tmin tmax,
      windowRows day_df s.start_time (s.start_time + dur) ≠ [] ∧
        s.score = spec_score
          (windowRows day_df s.start_time (s.start_time + dur))
          s.start_time (s.start_time + dur) srise sset := by
  intro s hs
  obtain ⟨-, -, r, rs, hw, hscore⟩ :=
    possible_slots_mem_elim day_df busy dur tmin tmax s hs
  refine ⟨by rw [hw]; simp, ?_⟩
  have hr : r ∈ day_df := by
    have hrw : r ∈ windowRows day_df s.start_time (s.start_time + dur) := by
      rw [hw]; exact List.mem_cons_self _ _
    exact List.mem_of_mem_filter hrw
  obtain ⟨h1, h2⟩ := hsun r hr
  rw [hw, hscore]
  simp [slotScore, spec_score, h1, h2]

theorem foldl_min_mem (x : Int) (l : List Int) : l.foldl min x ∈ x :: l := by
  induction l generalizing x with
  | nil => simp
  | cons a l ih =>
    rw [List.foldl_cons]
    rcases List.mem_cons.mp (ih (min x a)) with h | h
    · rw [h]
      rcases min_choice x a with hh | hh <;> simp [hh]
    · exact List.mem_cons_of_mem x (List.mem_cons_of_mem a h)

theorem foldl_max_mem (x : Int) (l : List Int) : l.foldl max x ∈ x :: l := by
  induction l generalizing x with
  | nil => simp
  | cons a l ih =>
    rw [List.foldl_cons]
    rcases List.mem_cons.mp (ih (max x a)) with h | h
    · rw [h]
      rcases max_choice x a with hh | hh <;> simp [hh]
    · exact List.mem_cons_of_mem x (List.mem_cons_of_mem a h)

theorem day_rows_dayOf (df : List HourlyObs) (d : Int) :
    ∀ r ∈ day_rows df d, dayOf r.ts = d := by
  intro r hr
  have := List.of_mem_filter hr
  simpa using this

theorem tsMin_dayOf (df : List HourlyObs) (d : Int) (r : HourlyObs)
    (rs : List HourlyObs) (hday : day_rows df d = r :: rs) :
    dayOf (tsMin r rs) = d := by
  have hmem : tsMin r rs ∈ r.ts :: rs.map (·.ts) := foldl_min_mem r.ts _
  rcases List.mem_cons.mp hmem with h | h
  · rw [h]
    exact day_rows_dayOf df d r (hday ▸ List.mem_cons_self _ _)
  · obtain ⟨x, hx, hxx⟩ := List.mem_map.mp h
    rw [← hxx]
    exact day_rows_dayOf df d x (hday ▸ List.mem_cons_of_mem r hx)

theorem tsMax_dayOf (df : List HourlyObs) (d : Int) (r : HourlyObs)
    (rs : List HourlyObs) (hday : day_rows df d = r :: rs) :
    dayOf (tsMax r rs) = d := by
  have hmem : tsMax r rs ∈ r.ts :: rs.map (·.ts) := foldl_max_mem r.ts _
  rcases List.mem_cons.mp hmem with h | h
  · rw [h]
    exact day_rows_dayOf df d r (hday ▸ List.mem_cons_self _ _)
  · obtain ⟨x, hx, hxx⟩ := List.mem_map.mp h
    rw [← hxx]
    exact day_rows_dayOf df d x (hday ▸ List.mem_cons_of_mem r hx)

/-- Claim C9. Every candidate start enumerated for a day advances in
30-minute steps from the day's first timestamp, stays below the day's
last timestamp by at least the duration, and - together with its whole
window - lies on that single calendar day: no enumerated window crosses
midnight. -/
theorem slot_windows_same_day (df : List HourlyObs) (d : Int) (dur : Nat)
    (r : HourlyObs) (rs : List HourlyObs) (hday : day_rows df d = r :: rs) :
    ∀ t ∈ slotStarts (tsMin r rs) (tsMax r rs) dur,
      (∃ k : Nat, t = tsMin r rs + 30 * k) ∧
        tsMin r rs ≤ t ∧ t + dur ≤ tsMax r rs ∧
        dayOf t = d ∧ dayOf (t + dur) = d := by
  intro t ht
  obtain ⟨k, hkr, ht2⟩ := List.mem_map.mp ht
  have hk : k < numSlots (tsMin r rs) (tsMax r rs) dur := List.mem_range.mp hkr
  subst ht2
  have hle : tsMin r rs ≤ tsMin r rs + 30 * (k : Int) := by omega
  have hbound : tsMin r rs + 30 * (k : Int) + dur ≤ tsMax r rs := by
    rw [numSlots] at hk
    split at hk
    · rename_i hcond
      have hk2 : k ≤ (tsMax r rs - tsMin r rs - dur).toNat / 30 := by omega
      have h30 : k * 30 ≤ (tsMax r rs - tsMin r rs - dur).toNat :=
        (Nat.le_div_iff_mul_le (by norm_num)).mp hk2
      have hD : ((tsMax r rs - tsMin r rs - (dur : Int)).toNat : Int)
          = tsMax r rs - tsMin r rs - dur := Int.toNat_of_nonneg (by omega)
      have h31 : ((k * 30 : Nat) : Int)
          ≤ ((tsMax r rs - tsMin r rs - (dur : Int)).toNat : Int) := by
        exact_mod_cast h30
      rw [hD] at h31
      push_cast at h31
      omega
    · omega
  have hdmin : dayOf (tsMin r rs) = d := tsMin_dayOf df d r rs hday
  have hdmax : dayOf (tsMax r rs) = d := tsMax_dayOf df d r rs hday
  have hmono : ∀ a b : Int, a ≤ b → dayOf a ≤ dayOf b := by
    intro a b hab
    exact Int.ediv_le_ediv (by norm_num) hab
  have hd1 : dayOf (tsMin r rs + 30 * (k : Int)) = d := by
    have l1 := hmono _ _ hle
    have l2 := hmono (tsMin r rs + 30 * (k : Int)) (tsMax r rs) (by omega)
    omega
  have hd2 : dayOf (tsMin r rs + 30 * (k : Int) + dur) = d := by
    have l1 := hmono (tsMin r rs) (tsMin r rs + 30 * (k : Int) + dur) (by omega)
    have l2 := hmono (tsMin r rs + 30 * (k : Int) + dur) (tsMax r rs) hbound
    omega
  exact ⟨⟨k, rfl⟩, hle, hbound, hd1, hd2⟩

/-- Claim C8. `find_daily_best_workout` returns at most 3 recommendations,
one per day drawn from the first 3 distinct calendar days; a day whose
candidate list is empty contributes nothing; a day with candidates
contributes exactly the first minimum-score candidate, labeled "Today"
for day 0, "Tomorrow" for day 1 and by weekday name after that; and a day
none of whose enumerated starts passes the busy-interval test contributes
nothing. -/
theorem find_daily_best_workout_selection (df : List HourlyObs)
    (routine : List TaskItem) (dur : Nat) :
    (find_daily_best_workout df routine dur).length ≤ 3 ∧
      (∀ rec ∈ find_daily_best_workout df routine dur,
        ∃ p ∈ ((unique_days (df.map fun r => dayOf r.ts)).take 3).enum,
          bestFor df (busy_times routine) dur p.1 p.2 = some rec) ∧
      (∀ idx d, slotsFor df (busy_times routine) dur d = [] →
        bestFor df (busy_times routine) dur idx d = none) ∧
      (∀ idx d s ss, slotsFor df (busy_times routine) dur d = s :: ss →
        ∃ b ∈ s :: ss, (∀ x ∈ s :: ss, b.score ≤ x.score) ∧
          bestFor df (busy_times routine) dur idx d
            = some ⟨b.start_time, b.score,
                if idx = 0 then "Today"
                else if idx = 1 then "Tomorrow"
                else weekdayName b.start_time⟩) ∧
      (∀ idx d r rs, day_rows df d = r :: rs →
        (∀ t ∈ slotStarts (tsMin r rs) (tsMax r rs) dur,
          is_free (busy_times routine) t (t + dur) = false) →
        bestFor df (busy_times routine) dur idx d = none) := by
  refine ⟨?_, ?_, ?_, ?_, ?_⟩
  · calc (find_daily_best_workout df routine dur).length
        ≤ (((unique_days (df.map fun r => dayOf r.ts)).take 3).enum).length :=
          List.length_filterMap_le _ _
      _ = ((unique_days (df.map fun r => dayOf r.ts)).take 3).length :=
          List.enum_length
      _ ≤ 3 := List.length_take_le _ _
  · intro rec hrec
    simp only [find_daily_best_workout, List.mem_filterMap] at hrec
    obtain ⟨p, hp, hbf⟩ := hrec
    exact ⟨p, hp, hbf⟩
  · intro idx d h
    unfold bestFor
    rw [h]
  · intro idx d s ss h
    refine ⟨pickBest s ss, ?_, ?_, ?_⟩
    · rcases pickBest_mem s ss with hh | hh
      · rw [hh]; exact List.mem_cons_self _ _
      · exact List.mem_cons_of_mem s hh
    · intro x hx
      obtain ⟨h1, h2⟩ := pickBest_le s ss
      rcases List.mem_cons.mp hx with rfl | hx
      · exact h1
      · exact h2 x hx
    · unfold bestFor
      rw [h]
      rfl
  · intro idx d r rs hday hfree
    have hslots : slotsFor df (busy_times routine) dur d = [] := by
      unfold slotsFor
      rw [hday]
      unfold possible_slots
      rw [List.filterMap_eq_nil_iff]
      intro t ht
      rw [hfree t ht]
      simp
    unfold bestFor
    rw [hslots]

theorem busy_times_eval :
    busy_times [⟨"Standup", some 600, some 630⟩] = [(600, 630)] := by
  norm_num [busy_times, List.filterMap_cons, List.filterMap_nil]

theorem day_rows_eval :
    day_rows [⟨0, 20, 50, 0, 0, 1440⟩] 0 = [⟨0, 20, 50, 0, 0, 1440⟩] := by
  norm_num [day_rows, dayOf, List.filter]

theorem possible_slots_eval :
    possible_slots [⟨0, 20, 50, 0, 0, 1440⟩] [(600, 630)] 0 0 0
      = [⟨0, -10⟩] := by
  norm_num [possible_slots, slotStarts, numSlots, List.range_succ, is_free,
    windowRows, List.filter, slotScore, qsum, qmax, List.filterMap]

theorem slotsFor_eval :
    slotsFor [⟨0, 20, 50, 0, 0, 1440⟩] [(600, 630)] 0 0 = [⟨0, -10⟩] := by
  rw [slotsFor, day_rows_eval]
  simpa [tsMin, tsMax] using possible_slots_eval

theorem find_daily_eval :
    find_daily_best_workout [⟨0, 20, 50, 0, 0, 1440⟩]
      [⟨"Standup", some 600, some 630⟩] 0 = [⟨0, -10, "Today"⟩] := by
  have h1 : unique_days (([⟨0, 20, 50, 0, 0, 1440⟩] : List HourlyObs).map
      fun r => dayOf r.ts) = [0] := by
    norm_num [unique_days, dayOf]
  rw [find_daily_best_workout, h1, busy_times_eval]
  norm_num [List.enum, List.enumFrom, bestFor, slotsFor_eval, pickBest,
    day_label, List.filterMap]

theorem find_daily_conflict_free_witness :
    ¬(((⟨0, -10, "Today"⟩ : Recommendation).start_time.emod 1440
          < ((((600, 630) : Nat × Nat).2 : Nat) : Int))
        ∧ (((((600, 630) : Nat × Nat).1 : Nat) : Int)
            < ((⟨0, -10, "Today"⟩ : Recommendation).start_time
                + ((0 : Nat) : Int)).emod 1440)) :=
  find_daily_best_workout_conflict_free [⟨0, 20, 50, 0, 0, 1440⟩]
    [⟨"Standup", some 600, some 630⟩] 0 ⟨0, -10, "Today"⟩
    (by rw [find_daily_eval]; exact List.mem_singleton.mpr rfl)
    (600, 630) (by rw [busy_times_eval]; exact List.mem_singleton.mpr rfl)

theorem possible_slots_score_spec_witness :
    windowRows [⟨0, 20, 50, 0, 0, 1440⟩] (⟨0, -10⟩ : Slot).start_time
        ((⟨0, -10⟩ : Slot).start_time + ((0 : Nat) : Int)) ≠ [] ∧
      (⟨0, -10⟩ : Slot).score = spec_score
        (windowRows [⟨0, 20, 50, 0, 0, 1440⟩] (⟨0, -10⟩ : Slot).start_time
          ((⟨0, -10⟩ : Slot).start_time + ((0 : Nat) : Int)))
        (⟨0, -10⟩ : Slot).start_time
        ((⟨0, -10⟩ : Slot).start_time + ((0 : Nat) : Int)) 0 1440 :=
  possible_slots_score_spec [⟨0, 20, 50, 0, 0, 1440⟩] [(600, 630)] 0 0 0 0 1440
    (by
      intro r hr
      rw [List.mem_singleton] at hr
      subst hr
      exact ⟨rfl, rfl⟩)
    ⟨0, -10⟩ (by rw [possible_slots_eval]; exact List.mem_singleton.mpr rfl)

theorem slot_windows_same_day_witness :
    (∃ k : Nat, (0 : Int)
        = tsMin ⟨0, 20, 50, 0, 0, 1440⟩ [] + 30 * (k : Int)) ∧
      tsMin ⟨0, 20, 50, 0, 0, 1440⟩ [] ≤ (0 : Int) ∧
      (0 : Int) + ((0 : Nat) : Int) ≤ tsMax ⟨0, 20, 50, 0, 0, 1440⟩ [] ∧
      dayOf (0 : Int) = 0 ∧ dayOf ((0 : Int) + ((0 : Nat) : Int)) = 0 :=
  slot_windows_same_day [⟨0, 20, 50, 0, 0, 1440⟩] 0 0 ⟨0, 20, 50, 0, 0, 1440⟩
    [] day_rows_eval 0
    (by norm_num [slotStarts, numSlots, tsMin, tsMax, List.range_succ])

theorem find_daily_selection_witness :
    (find_daily_best_workout [⟨0, 20, 50, 0, 0, 1440⟩]
        [⟨"Standup", some 600, some 630⟩] 0).length ≤ 3 :=
  (find_daily_best_workout_selection [⟨0, 20, 50, 0, 0, 1440⟩]
      [⟨"Standup", some 600, some 630⟩] 0).1
